import Mathlib

/-!
Verification model of the flogo gin REST trigger: the request/response
translation layer (`newGinHandler` in the trigger file) and the server
lifecycle (`server.go`).  Go maps keyed by strings are modelled as
association lists, byte streams as Lean strings, and the parts of the Go
standard library the code calls (`encoding/json` decoding, `net/url`
query parsing, `http.Error`, `http.Server.Shutdown`) are modelled
following their documented behavior.
-/

namespace ContribGin

/-- JSON values as produced by decoding into a Go `interface\x7b\x7d`.
Numbers keep their source lexeme (the handler never inspects the numeric
value, only carries it). -/
inductive Jval where
  | null
  | bool (b : Bool)
  | num (lexeme : String)
  | str (s : String)
  | arr (elems : List Jval)
  | obj (members : List (String × Jval))
deriving Repr

/-- Result of a parsing step: a value plus the unconsumed rest of the
stream, or an error message. -/
inductive PResult (α : Type) where
  | ok (val : α) (rest : List Char)
  | fail (msg : String)
deriving Repr

/-- JSON insignificant whitespace, as in Go `encoding/json` `isSpace`. -/
def isWs (c : Char) : Bool :=
  c == ' ' || c == '\t' || c == '\n' || c == '\r'

def skipWs : List Char → List Char
  | [] => []
  | c :: t => if isWs c then skipWs t else c :: t

def hexVal (c : Char) : Option Nat :=
  if '0' ≤ c ∧ c ≤ '9' then some (c.toNat - '0'.toNat)
  else if 'a' ≤ c ∧ c ≤ 'f' then some (c.toNat - 'a'.toNat + 10)
  else if 'A' ≤ c ∧ c ≤ 'F' then some (c.toNat - 'A'.toNat + 10)
  else none

def escChar : Char → Option Char
  | '"' => some '"'
  | '\\' => some '\\'
  | '/' => some '/'
  | 'b' => some (Char.ofNat 8)
  | 'f' => some (Char.ofNat 12)
  | 'n' => some '\n'
  | 'r' => some '\r'
  | 't' => some '\t'
  | _ => none

def consStr (c : Char) : PResult String → PResult String
  | .ok s r => .ok (String.mk (c :: s.data)) r
  | .fail m => .fail m

/-- Body of a JSON string literal, after the opening quote: consumes up
to and including the closing quote. -/
def parseStringBody : List Char → PResult String
  | [] => .fail "unexpected end of JSON input"
  | '"' :: t => .ok "" t
  | '\\' :: t =>
    match t with
    | [] => .fail "unexpected end of JSON input"
    | e :: u =>
      match escChar e with
      | some c => consStr c (parseStringBody u)
      | none =>
        if e = 'u' then
          match u with
          | a :: b :: c2 :: d :: r =>
            match hexVal a, hexVal b, hexVal c2, hexVal d with
            | some x1, some x2, some x3, some x4 =>
              consStr (Char.ofNat (((x1 * 16 + x2) * 16 + x3) * 16 + x4)) (parseStringBody r)
            | _, _, _, _ => .fail "invalid character in hexadecimal character escape"
          | _ => .fail "unexpected end of JSON input"
        else .fail "invalid character in string escape code"
  | c :: t =>
    if c.toNat < 32 then .fail "invalid character in string literal"
    else consStr c (parseStringBody t)

def spanDigits (cs : List Char) : List Char × List Char :=
  cs.span (fun c => c.isDigit)

/-- Optional exponent part of a numeric literal. -/
def numExp (lex : List Char) (cs : List Char) : PResult Jval :=
  match cs with
  | c :: t =>
    if c = 'e' ∨ c = 'E' then
      let p := match t with
        | '+' :: u => (['+'], u)
        | '-' :: u => (['-'], u)
        | _ => (([] : List Char), t)
      match spanDigits p.2 with
      | ([], _) => .fail "invalid character in exponent of numeric literal"
      | (ds, r) => .ok (.num (String.mk (lex ++ c :: (p.1 ++ ds)))) r
    else .ok (.num (String.mk lex)) (c :: t)
  | [] => .ok (.num (String.mk lex)) []

/-- Optional fraction part of a numeric literal, then exponent. -/
def numTail (lex : List Char) (cs : List Char) : PResult Jval :=
  match cs with
  | '.' :: t =>
    match spanDigits t with
    | ([], _) => .fail "invalid character after decimal point in numeric literal"
    | (ds, r) => numExp (lex ++ '.' :: ds) r
  | _ => numExp lex cs

/-- A JSON numeric literal, per the Go scanner grammar: an optional
minus sign, then either a single `0` or a nonzero digit followed by
digits, then optional fraction and exponent. -/
def parseNum (cs : List Char) : PResult Jval :=
  let p := match cs with
    | '-' :: t => ((['-'] : List Char), t)
    | _ => (([] : List Char), cs)
  match p.2 with
  | [] => .fail "unexpected end of JSON input"
  | c :: t =>
    if c = '0' then numTail (p.1 ++ ['0']) t
    else if c.isDigit then
      let q := spanDigits (c :: t)
      numTail (p.1 ++ q.1) q.2
    else .fail "invalid character in numeric literal"

def expectLit (lit : List Char) (v : Jval) (cs : List Char) : PResult Jval :=
  if lit.isPrefixOf cs then .ok v (cs.drop lit.length)
  else .fail "invalid character in literal"

mutual

/-- One JSON value, by recursive descent with a fuel bound on nesting.
Mirrors what Go's `json.Decoder.Decode` accepts for a single value:
leading whitespace is skipped, and the value's extent ends as soon as
the grammar completes (anything after it is left unconsumed). -/
def parseVal : Nat → List Char → PResult Jval
  | 0, _ => .fail "exceeded max depth"
  | Nat.succ fuel, cs =>
    match skipWs cs with
    | [] => .fail "unexpected end of JSON input"
    | 'n' :: t => expectLit ['u', 'l', 'l'] Jval.null t
    | 't' :: t => expectLit ['r', 'u', 'e'] (Jval.bool true) t
    | 'f' :: t => expectLit ['a', 'l', 's', 'e'] (Jval.bool false) t
    | '"' :: t =>
      match parseStringBody t with
      | .ok s r => .ok (.str s) r
      | .fail m => .fail m
    | '\x7b' :: t =>
      match skipWs t with
      | '\x7d' :: r => .ok (.obj []) r
      | u =>
        match parseMembersRest fuel u with
        | .ok kvs r => .ok (.obj kvs) r
        | .fail m => .fail m
    | '[' :: t =>
      match skipWs t with
      | ']' :: r => .ok (.arr []) r
      | u =>
        match parseElemsRest fuel u with
        | .ok vs r => .ok (.arr vs) r
        | .fail m => .fail m
    | c :: t =>
      if c = '-' ∨ c.isDigit then parseNum (c :: t)
      else .fail "invalid character looking for beginning of value"

/-- Elements of a non-empty array, after the opening bracket. -/
def parseElemsRest : Nat → List Char → PResult (List Jval)
  | 0, _ => .fail "exceeded max depth"
  | Nat.succ fuel, cs =>
    match parseVal fuel cs with
    | .fail m => .fail m
    | .ok v rest =>
      match skipWs rest with
      | ',' :: t =>
        match parseElemsRest fuel t with
        | .ok vs r => .ok (v :: vs) r
        | .fail m => .fail m
      | ']' :: t => .ok [v] t
      | _ => .fail "invalid character after array element"

/-- Members of a non-empty object, after the opening brace. -/
def parseMembersRest : Nat → List Char → PResult (List (String × Jval))
  | 0, _ => .fail "exceeded max depth"
  | Nat.succ fuel, cs =>
    match skipWs cs with
    | '"' :: t =>
      match parseStringBody t with
      | .fail m => .fail m
      | .ok key rest =>
        match skipWs rest with
        | ':' :: t2 =>
          match parseVal fuel t2 with
          | .fail m => .fail m
          | .ok v rest2 =>
            match skipWs rest2 with
            | ',' :: t3 =>
              match parseMembersRest fuel t3 with
              | .ok kvs r => .ok ((key, v) :: kvs) r
              | .fail m => .fail m
            | '\x7d' :: t3 => .ok [(key, v)] t3
            | _ => .fail "invalid character after object key-value pair"
        | _ => .fail "invalid character after object key"
    | _ => .fail "invalid character looking for beginning of object key string"

end

/-- Result of `json.Decoder.Decode` into an `interface\x7b\x7d`:
`eof` models the `io.EOF` return on a stream holding no value (empty or
whitespace only), `ok` a decoded first value with the unread remainder
of the stream, `fail` any other decode error. -/
inductive DecodeResult where
  | eof
  | ok (v : Jval) (rest : List Char)
  | fail (msg : String)
deriving Repr

/-- Model of `json.NewDecoder(body).Decode(&content)` as called by the
handler: whitespace-only input reports `io.EOF`; otherwise a single
value is decoded and anything after it is left unread (Go's `Decode`
does not reject trailing data). -/
def decodeGo (s : String) : DecodeResult :=
  match skipWs s.data with
  | [] => .eof
  | cs =>
    match parseVal (s.length + 2) cs with
    | .ok v rest => .ok v rest
    | .fail m => .fail m

/-- Model of `json.Unmarshal([]byte(t), &v) == nil`: the whole input
must be exactly one JSON value plus insignificant whitespace. -/
def jsonValid (s : String) : Bool :=
  match parseVal (s.length + 2) s.data with
  | .ok _ rest => (skipWs rest).isEmpty
  | .fail _ => false

def escapeJStr (s : String) : String :=
  String.join (s.data.map (fun c =>
    if c = '"' then "\\\""
    else if c = '\\' then "\\\\"
    else if c = '\n' then "\\n"
    else if c = '\r' then "\\r"
    else if c = '\t' then "\\t"
    else String.mk [c]))

mutual

/-- JSON encoding of a value, for the structured-reply branch
(`json.NewEncoder(w).Encode(reply.Data)` minus the trailing newline,
which the caller appends). -/
def encodeJ : Jval → String
  | .null => "null"
  | .bool true => "true"
  | .bool false => "false"
  | .num l => l
  | .str s => "\"" ++ escapeJStr s ++ "\""
  | .arr xs => "[" ++ encodeElems xs ++ "]"
  | .obj kvs => "\x7b" ++ encodeMembers kvs ++ "\x7d"

def encodeElems : List Jval → String
  | [] => ""
  | [x] => encodeJ x
  | x :: y :: t => encodeJ x ++ "," ++ encodeElems (y :: t)

def encodeMembers : List (String × Jval) → String
  | [] => ""
  | [kv] => "\"" ++ escapeJStr kv.1 ++ "\":" ++ encodeJ kv.2
  | kv :: kv2 :: t => "\"" ++ escapeJStr kv.1 ++ "\":" ++ encodeJ kv.2 ++ "," ++ encodeMembers (kv2 :: t)

end

/-! ## Go maps and HTTP headers as association lists -/

/-- Go `map[string][]string`, the type of `http.Header` and
`url.Values`. -/
abbrev Hdrs := List (String × List String)

/-- Lookup in a string-keyed map. -/
def mGet {α : Type} (m : List (String × α)) (k : String) : Option α :=
  match m with
  | [] => none
  | (k2, v) :: t => if k2 = k then some v else mGet t k

/-- Go map assignment `m[k] = v`. -/
def mSet {α : Type} (m : List (String × α)) (k : String) (v : α) : List (String × α) :=
  (k, v) :: m.filter (fun p => p.1 != k)

/-- `url.Values.Add`: append one more value for a key. -/
def mAppend (m : Hdrs) (k : String) (v : String) : Hdrs :=
  match m with
  | [] => [(k, [v])]
  | (k2, vs) :: t => if k2 = k then (k2, vs ++ [v]) :: t else (k2, vs) :: mAppend t k v

/-- `http.Header.Get`: first value for the key, `""` when absent. -/
def hGet (h : Hdrs) (k : String) : String :=
  match mGet h k with
  | some (v :: _) => v
  | _ => ""

/-- `http.Header.Set`: replace all values of the key with a single one. -/
def hSet (h : Hdrs) (k : String) (v : String) : Hdrs :=
  mSet h k [v]

/-! ## The `url.ParseQuery` model (form-urlencoded bodies) -/

def fromHex2 (a b : Char) : Option Char :=
  match hexVal a, hexVal b with
  | some x, some y => some (Char.ofNat (x * 16 + y))
  | _, _ => none

/-- `url.QueryUnescape`: percent-escapes and `+` as space. -/
def unescapeQuery : List Char → Except String (List Char)
  | [] => .ok []
  | '%' :: a :: b :: t =>
    match fromHex2 a b with
    | some c =>
      match unescapeQuery t with
      | .ok r => .ok (c :: r)
      | .error e => .error e
    | none => .error "invalid URL escape"
  | '%' :: _ => .error "invalid URL escape"
  | '+' :: t =>
    match unescapeQuery t with
    | .ok r => .ok (' ' :: r)
    | .error e => .error e
  | c :: t =>
    match unescapeQuery t with
    | .ok r => .ok (c :: r)
    | .error e => .error e

/-- `strings.Cut` at the first `=`: key and (possibly empty) value. -/
def cutEq (s : String) : String × String :=
  let p := s.data.span (fun c => c != '=')
  (String.mk p.1, String.mk (p.2.drop 1))

/-- One segment of a query string; accumulates the multimap and the
first error, as `url.ParseQuery` does (it records the error and keeps
going). -/
def parseQuerySeg (acc : Hdrs × Option String) (seg : String) : Hdrs × Option String :=
  if seg = "" then acc
  else if seg.contains ';' then
    (acc.1, acc.2.getD "invalid semicolon separator in query" |> some)
  else
    let kv := cutEq seg
    match unescapeQuery kv.1.data, unescapeQuery kv.2.data with
    | .ok k, .ok v => (mAppend acc.1 (String.mk k) (String.mk v), acc.2)
    | .error e, _ => (acc.1, acc.2.getD e |> some)
    | _, .error e => (acc.1, acc.2.getD e |> some)

/-- Model of `url.ParseQuery`: the handler uses the parsed values only
when no error was recorded, so the partially filled map on error is
folded into the error case. -/
def parseQuery (s : String) : Except String Hdrs :=
  let r := (s.split (fun c => c == '&')).foldl parseQuerySeg ([], none)
  match r.2 with
  | some e => .error e
  | none => .ok r.1

/-! ## Data model of the handler -/

/-- The decoded request content (`out.Content`), one of the three
shapes the decoder produces. -/
inductive Content where
  | json (v : Jval)
  | form (m : List (String × String))
  | raw (s : String)

/-- The normalized inbound message (`contrib.Output`). -/
structure Output where
  method : String
  pathParams : List (String × String)
  queryParams : List (String × String)
  headers : List (String × String)
  content : Option Content

/-- The payload variant of a handler reply (`reply.Data`, an
`interface\x7b\x7d` the translator switches on: `string` vs anything
else, the latter JSON-encoded). -/
inductive RData where
  | str (s : String)
  | structured (v : Jval)

/-- The handler reply (`contrib.Reply` after `FromMap`). -/
structure Reply where
  code : Nat
  headers : List (String × String)
  data : Option RData

/-- The state of the response writer: headers set on
`c.Writer.Header()`, the status code passed to `WriteHeader`, and the
bytes written. -/
structure Response where
  headers : Hdrs := []
  status : Option Nat := none
  body : String := ""

/-- The incoming request as the handler sees it: headers, matched path
parameters (`c.Params`), query values (`c.Request.URL.Query()`), and
the body stream. -/
structure Request where
  headers : Hdrs := []
  params : List (String × String) := []
  query : Hdrs := []
  body : String := ""

/-- Everything observable when the gin handler returns: the (mutable)
request header map, the response writer state, whether the external
handler ran, and the `out` message at return time. -/
structure GinResult where
  reqHeaders : Hdrs
  resp : Response
  invoked : Bool
  output : Option Output

/-- Model of `http.Error(w, msg, code)`: sets the plain-text content
type and nosniff header, writes the status and the message followed by
a newline. -/
def httpError (resp : Response) (msg : String) (code : Nat) : Response :=
  { headers := hSet (hSet resp.headers "Content-Type" "text/plain; charset=utf-8")
      "X-Content-Type-Options" "nosniff",
    status := some code,
    body := resp.body ++ msg ++ "\n" }

def joinValues (m : Hdrs) : List (String × String) :=
  m.map (fun kv => (kv.1, String.intercalate "," kv.2))

/-- The part of `newGinHandler` before the content-type switch: the
`out` message assembled from method, path parameters, comma-joined
query parameters and comma-joined headers. -/
def buildOutput (method : String) (req : Request) : Output :=
  { method := method,
    pathParams := req.params.foldl (fun m p => mSet m p.1 p.2) [],
    queryParams := joinValues req.query,
    headers := joinValues req.headers,
    content := none }

/-- A decoded top-level JSON value as `out.Content`: decoding `null`
into an `interface\x7b\x7d` leaves it `nil`, indistinguishable from an
absent body. -/
def contentOfJval : Jval → Option Content
  | .null => none
  | v => some (.json v)

/-- Reply translation, `newGinHandler` lines 199-251: apply reply
headers onto the *request's* header map (as the source does), default
the code to 200, then write the response according to the data
variant. -/
def translateReply (reply : Reply) (reqH : Hdrs) (resp : Response) : Hdrs × Response :=
  let reqH2 := reply.headers.foldl (fun h kv => hSet h kv.1 kv.2) reqH
  let code := if reply.code = 0 then 200 else reply.code
  match reply.data with
  | some (RData.str t) =>
    let ct := if jsonValid t then "application/json; charset=UTF-8"
              else "text/plain; charset=UTF-8"
    (reqH2, { resp with headers := hSet resp.headers "Content-Type" ct,
                        status := some code, body := resp.body ++ t })
  | some (RData.structured v) =>
    (reqH2, { resp with headers := hSet resp.headers "Content-Type" "application/json; charset=UTF-8",
                        status := some code, body := resp.body ++ encodeJ v ++ "\n" })
  | none => (reqH2, { resp with status := some code })

/-- A pre-handler failure: `http.Error(..., 400)` and return. -/
def errResult (req : Request) (out : Output) (e : String) : GinResult :=
  { reqHeaders := req.headers, resp := httpError {} e 400,
    invoked := false, output := some out }

/-- The tail of the handler once content decoding succeeded: invoke
the external handler (folded with `Reply.FromMap`, which lives in the
rest-trigger package) and translate its reply; an error from either is
`http.Error(..., 400)`. -/
def afterDecode (handler : Output → Except String Reply) (req : Request) (out : Output) :
    GinResult :=
  match handler out with
  | .error e =>
    { reqHeaders := req.headers, resp := httpError {} e 400,
      invoked := true, output := some out }
  | .ok reply =>
    { reqHeaders := (translateReply reply req.headers {}).1,
      resp := (translateReply reply req.headers {}).2,
      invoked := true, output := some out }

/-- The gin route handler built by `newGinHandler`: the content-type
switch over form, JSON and the raw fallback, then handler invocation
and reply translation.  The external handler is an opaque parameter
returning either a reply or an error, exactly the two ways the source's
`handler.Handle` + `reply.FromMap` pair can go. -/
def newGinHandler (method : String) (handler : Output → Except String Reply)
    (req : Request) : GinResult :=
  let out := buildOutput method req
  let contentType := hGet req.headers "Content-Type"
  if contentType = "application/x-www-form-urlencoded" then
    match parseQuery req.body with
    | .error e => errResult req out e
    | .ok m =>
      let content := m.map (fun kv => (kv.1, kv.2.headD ""))
      afterDecode handler req { out with content := some (.form content) }
  else if contentType = "application/json" then
    match decodeGo req.body with
    | .eof => afterDecode handler req out
    | .fail e => errResult req out e
    | .ok v _ => afterDecode handler req { out with content := contentOfJval v }
  else
    { reqHeaders := req.headers, resp := {}, invoked := false,
      output := some { out with content := some (.raw req.body) } }

/-! ## Server lifecycle (server.go) -/

/-- One `time.Second` in nanoseconds, the unit of Go `time.Duration`. -/
def second : Nat := 1000000000

def httpDefaultAddr : String := ":8080"
def httpDefaultTlsAddr : String := ":8443"
def httpDefaultReadTimeout : Nat := 60 * second
def httpDefaultWriteTimeout : Nat := 60 * second

/-- Errors crossing the modelled boundary with the Go runtime:
`context.DeadlineExceeded` or any other error, identified by text. -/
inductive GoErr where
  | deadlineExceeded
  | errMsg (s : String)
deriving Repr, DecidableEq

/-- The fields of the embedded `http.Server` the lifecycle code reads
or writes (the `Handler` is opaque to it and omitted). -/
structure HttpSrv where
  addr : String
  readTimeout : Nat
  writeTimeout : Nat
deriving Repr, DecidableEq

/-- The `Server` struct of server.go. -/
structure Server where
  running : Bool
  srv : HttpSrv
  tlsEnabled : Bool
  certFile : String
  keyFile : String
deriving Repr, DecidableEq

/-- Construction options (`TLS`, `Timeouts`), as data so a list of them
can be folded exactly like the `opts ...Option` loop. -/
inductive SOption where
  | tls (certFile keyFile : String)
  | timeouts (readTimeout writeTimeout : Nat)

/-- Application of one option closure to the server under
construction. -/
def applyOption (s : Server) : SOption → Server
  | .tls c k =>
    let s2 := { s with tlsEnabled := true, certFile := c, keyFile := k }
    if s2.srv.addr = "" then { s2 with srv := { s2.srv with addr := httpDefaultTlsAddr } }
    else s2
  | .timeouts r w => { s with srv := { s.srv with readTimeout := r, writeTimeout := w } }

/-- `validateInit`: with TLS enabled, both file names must be set and
the key pair must load; `loadKeyPairOk` stands for the file-system
outcome of `tls.LoadX509KeyPair`. -/
def validateInit (s : Server) (loadKeyPairOk : String → String → Bool) : Option String :=
  if s.tlsEnabled then
    if s.certFile = "" ∨ s.keyFile = "" then
      some "when TLS is enabled, both cert file and key file must be specified"
    else if loadKeyPairOk s.certFile s.keyFile then none
    else some "failed to load key pair"
  else none

/-- `NewServer`: default the empty address to `:8080` *before* the
options run, apply the options, then validate. -/
def NewServer (addr : String) (opts : List SOption)
    (loadKeyPairOk : String → String → Bool) : Except String Server :=
  let addr2 := if addr = "" then httpDefaultAddr else addr
  let base : Server :=
    { running := false,
      srv := { addr := addr2, readTimeout := httpDefaultReadTimeout,
               writeTimeout := httpDefaultWriteTimeout },
      tlsEnabled := false, certFile := "", keyFile := "" }
  let s := opts.foldl applyOption base
  match validateInit s loadKeyPairOk with
  | some e => .error e
  | none => .ok s

/-- What a call to `Server.Start` leaves behind: the server state, the
returned error, and whether the port probe (`validateStart`, a
bind-then-release `net.Listen`) was performed. -/
structure StartResult where
  server : Server
  result : Option GoErr
  probed : Bool
deriving Repr, DecidableEq

/-- `Server.Start`: a no-op returning nil when the flag is already set;
otherwise probe the port (`probeErr` is the outcome of the external
`net.Listen`), and on success set the flag and detach the serve
goroutine. -/
def Server.Start (s : Server) (probeErr : Option GoErr) : StartResult :=
  if s.running then { server := s, result := none, probed := false }
  else
    match probeErr with
    | some e => { server := s, result := some e, probed := true }
    | none => { server := { s with running := true }, result := none, probed := true }

/-- The detached serve goroutine's effect once
`ListenAndServe`/`ListenAndServeTLS` returns: a non-nil error clears
the running flag (and is logged unless it is `http.ErrServerClosed`). -/
def serveExit (s : Server) (listenErr : Option GoErr) : Server :=
  match listenErr with
  | some _ => { s with running := false }
  | none => s

/-- Model of Go `net/http` `Server.Shutdown` per its documentation: it
stops accepting and waits for in-flight connections; if the context's
deadline (`grace`) expires before the remaining in-flight work
(`inflight`) completes, it returns the context's error
(`context.DeadlineExceeded`); otherwise it returns whatever error
closing the listeners produced. -/
def shutdownModel (grace : Nat) (inflight : Nat) (closeErr : Option GoErr) : Option GoErr :=
  if grace < inflight then some GoErr.deadlineExceeded else closeErr

/-- `Server.Stop`: a no-op returning nil when not running; otherwise a
`Shutdown` bounded by a 5-second context, whose result is returned
as-is.  No field of the server is written. -/
def Server.Stop (s : Server) (inflight : Nat) (closeErr : Option GoErr) :
    Server × Option GoErr :=
  if s.running then (s, shutdownModel (5 * second) inflight closeErr)
  else (s, none)

/-! ## Concrete fixtures used by witnesses and counterexamples -/

/-- An external handler that succeeds with the empty reply (code 0, no
headers, no data). -/
def replyOkHandler : Output → Except String Reply :=
  fun _ => .ok { code := 0, headers := [], data := none }

/-- A JSON-declared request whose body is a single space. -/
def reqJsonWs : Request :=
  { headers := [("Content-Type", ["application/json"])], body := " " }

/-- A JSON-declared request with an unparsable body. -/
def reqJsonBad : Request :=
  { headers := [("Content-Type", ["application/json"])], body := "x" }

/-- A JSON-declared request with a zero-byte body. -/
def reqJsonEmpty : Request :=
  { headers := [("Content-Type", ["application/json"])], body := "" }

/-- A JSON-declared request whose body is one value plus trailing
bytes. -/
def reqTrailing : Request :=
  { headers := [("Content-Type", ["application/json"])], body := "1 x" }

/-- A request with a content type outside the two handled ones. -/
def reqXml : Request :=
  { headers := [("Content-Type", ["text/xml"])], body := "hello" }

/-- A reply carrying only headers. -/
def replyHdrs : Reply :=
  { code := 0, headers := [("X-Foo", "bar")], data := none }

/-- A reply whose data is a string holding JSON text. -/
def replyJsonStr : Reply :=
  { code := 0, headers := [], data := some (.str "\x7b\"a\":1\x7d") }

/-- A server whose running flag is set. -/
def srvRunning : Server :=
  { running := true,
    srv := { addr := ":8080", readTimeout := 60 * second, writeTimeout := 60 * second },
    tlsEnabled := false, certFile := "", keyFile := "" }

/-- The same server, not running. -/
def srvStopped : Server :=
  { srvRunning with running := false }

/-! ## Helper lemmas -/

theorem mGet_filter {α : Type} (m : List (String × α)) (k k2 : String) (h : k2 ≠ k) :
    mGet (m.filter (fun p => p.1 != k2)) k = mGet m k := by
  induction m with
  | nil => rfl
  | cons p t ih =>
    by_cases hp : p.1 = k2
    · have hf : (p.1 != k2) = false := by simp [hp]
      have hk : ¬ p.1 = k := by rw [hp]; exact h
      simp [List.filter_cons, hf, mGet, hk, ih]
    · have hf : (p.1 != k2) = true := by simp [hp]
      by_cases hk : p.1 = k
      · simp [List.filter_cons, hf, mGet, hk, Ne.symm h]
      · simp [List.filter_cons, hf, mGet, hk, ih]

theorem mGet_mSet {α : Type} (m : List (String × α)) (k2 k : String) (v : α) :
    mGet (mSet m k2 v) k = if k2 = k then some v else mGet m k := by
  unfold mSet
  by_cases h : k2 = k
  · simp [mGet, h]
  · simp only [mGet, h, if_false]
    exact mGet_filter m k k2 h

theorem afterDecode_invoked (handler : Output → Except String Reply) (req : Request)
    (out : Output) :
    (afterDecode handler req out).invoked = true ∧
      (afterDecode handler req out).output = some out := by
  unfold afterDecode
  cases handler out <;> simp

/-! ## Sanity checks of the decoder model against Go behavior -/

example : decodeGo "" = .eof := by rfl
example : decodeGo "   " = .eof := by rfl
example : decodeGo " " = .eof := by rfl
example : decodeGo "true" = .ok (.bool true) [] := by rfl
example : decodeGo "1 x" = .ok (.num "1") [' ', 'x'] := by rfl
example : decodeGo "truex" = .ok (.bool true) ['x'] := by rfl
example : decodeGo "tru" = .fail "invalid character in literal" := by rfl
example : jsonValid "\x7b\"a\":1\x7d" = true := by rfl
example : jsonValid "hello" = false := by rfl
example : jsonValid " " = false := by rfl
example : decodeGo "\x7b\"a\":[1,2.5e3,null]\x7d " = .ok (.obj [("a", .arr [.num "1", .num "2.5e3", .null])]) [' '] := by rfl

/-! ## Claims -/

/-- Claim C1: with a non-empty reply header map, the translator applies
every reply header onto the request's header map (`c.Request.Header`),
and the response header map is untouched at every key other than the
Content-Type the translator itself sets. -/
theorem reply_headers_target_request (reply : Reply) (reqH : Hdrs) (resp : Response)
    (_hne : reply.headers ≠ []) :
    (translateReply reply reqH resp).1 =
      reply.headers.foldl (fun h kv => hSet h kv.1 kv.2) reqH ∧
    ∀ k, k ≠ "Content-Type" →
      mGet (translateReply reply reqH resp).2.headers k = mGet resp.headers k := by
  constructor
  · cases hd : reply.data with
    | none => simp [translateReply, hd]
    | some d => cases d <;> simp [translateReply, hd]
  · intro k hk
    cases hd : reply.data with
    | none => simp [translateReply, hd]
    | some d => cases d <;> simp [translateReply, hd, hSet, mGet_mSet, Ne.symm hk]

theorem reply_headers_target_request_inst :
    (translateReply replyHdrs [] {}).1 =
      replyHdrs.headers.foldl (fun h kv => hSet h kv.1 kv.2) ([] : Hdrs) ∧
    mGet (translateReply replyHdrs [] {}).2.headers "X-Foo" =
      mGet ({} : Response).headers "X-Foo" :=
  ⟨(reply_headers_target_request replyHdrs [] {} (by decide)).1,
   (reply_headers_target_request replyHdrs [] {} (by decide)).2 "X-Foo" (by decide)⟩

/-- Claim C2, counterexample: a running server stopped while 6 seconds
of in-flight work remain and with no listener-close error gets
`context.DeadlineExceeded` back from `Shutdown`, and `Stop` returns
that error — the claim says grace-period expiry does not cause an
error return. -/
theorem stop_timeout_error_example :
    Server.Stop srvRunning (6 * second) none =
      (srvRunning, some GoErr.deadlineExceeded) ∧
    srvRunning.running = true :=
  ⟨rfl, rfl⟩

/-- Claim C2, amended: `Stop` on a running server shuts down under a
fixed 5-second grace period and returns the `Shutdown` result
unchanged; that result is nil exactly when closing the listeners
produced no error AND the in-flight work finished within the grace
period — expiry of the grace period IS returned as an error
(`context.DeadlineExceeded`). -/
theorem stop_shutdown_result_forwarded (s : Server) (inflight : Nat)
    (closeErr : Option GoErr) (h : s.running = true) :
    Server.Stop s inflight closeErr = (s, shutdownModel (5 * second) inflight closeErr) ∧
    (shutdownModel (5 * second) inflight closeErr = none ↔
      closeErr = none ∧ inflight ≤ 5 * second) := by
  constructor
  · simp [Server.Stop, h]
  · unfold shutdownModel
    by_cases hin : 5 * second < inflight
    · simp only [hin, if_true]
      constructor
      · intro hx; exact absurd hx (by simp)
      · rintro ⟨_, h2⟩; omega
    · have hle : inflight ≤ 5 * second := Nat.le_of_not_lt hin
      simp [hin, hle]

theorem stop_shutdown_result_forwarded_inst :
    Server.Stop srvRunning 0 none = (srvRunning, shutdownModel (5 * second) 0 none) ∧
    (shutdownModel (5 * second) 0 none = none ↔
      (none : Option GoErr) = none ∧ 0 ≤ 5 * second) :=
  stop_shutdown_result_forwarded srvRunning 0 none rfl

/-- Claim C3: constructing with an empty address and the TLS option
yields `:8080`, not the TLS default `:8443` — `NewServer` replaces the
empty address with the plain default before the options run, so the
TLS option's own defaulting branch sees a non-empty address and never
fires.  This evaluates the construction at the claim's input. -/
theorem newServer_empty_addr_tls_gets_8080 :
    NewServer "" [SOption.tls "server.crt" "server.key"] (fun _ _ => true) =
      .ok { running := false,
            srv := { addr := httpDefaultAddr, readTimeout := httpDefaultReadTimeout,
                     writeTimeout := httpDefaultWriteTimeout },
            tlsEnabled := true, certFile := "server.crt", keyFile := "server.key" } ∧
    NewServer "" [] (fun _ _ => true) =
      .ok { running := false,
            srv := { addr := httpDefaultAddr, readTimeout := httpDefaultReadTimeout,
                     writeTimeout := httpDefaultWriteTimeout },
            tlsEnabled := false, certFile := "", keyFile := "" } ∧
    httpDefaultAddr ≠ httpDefaultTlsAddr := by
  refine ⟨rfl, rfl, ?_⟩
  decide

/-- Claim C4, counterexample: a `text/xml` request with body `hello`
short-circuits, but nothing at all is written to the response — the
body is not echoed back to the client, contrary to the claim. -/
theorem unknown_ct_no_echo_example :
    reqXml.body = "hello" ∧
    (newGinHandler "GET" replyOkHandler reqXml).resp.body = "" ∧
    (newGinHandler "GET" replyOkHandler reqXml).resp.status = none ∧
    (newGinHandler "GET" replyOkHandler reqXml).invoked = false :=
  ⟨rfl, rfl, rfl, rfl⟩

/-- Claim C4, amended: for any content type other than the form and
JSON ones, the whole body is read and stored as the raw string content
and the function returns immediately: the external handler is never
invoked and the response is left completely untouched (no status, no
headers, no body — the raw body is NOT sent back). -/
theorem unknown_ct_short_circuit (method : String) (handler : Output → Except String Reply)
    (req : Request)
    (h1 : hGet req.headers "Content-Type" ≠ "application/x-www-form-urlencoded")
    (h2 : hGet req.headers "Content-Type" ≠ "application/json") :
    newGinHandler method handler req =
      { reqHeaders := req.headers, resp := {}, invoked := false,
        output := some { buildOutput method req with content := some (Content.raw req.body) } } := by
  simp only [newGinHandler]
  rw [if_neg h1, if_neg h2]

theorem unknown_ct_short_circuit_inst :
    newGinHandler "GET" replyOkHandler reqXml =
      { reqHeaders := reqXml.headers, resp := {}, invoked := false,
        output := some { buildOutput "GET" reqXml with content := some (Content.raw reqXml.body) } } :=
  unknown_ct_short_circuit "GET" replyOkHandler reqXml (by decide) (by decide)

/-- Claim C5: a string reply is sniffed (a JSON parse deciding only the
Content-Type header), the status is written, and the original string is
written to the body verbatim, whichever way the sniff went. -/
theorem string_reply_sniff_verbatim (reply : Reply) (reqH : Hdrs) (resp : Response)
    (t : String) (hd : reply.data = some (RData.str t)) :
    (translateReply reply reqH resp).2.body = resp.body ++ t ∧
    mGet (translateReply reply reqH resp).2.headers "Content-Type" =
      some [if jsonValid t then "application/json; charset=UTF-8"
            else "text/plain; charset=UTF-8"] ∧
    (translateReply reply reqH resp).2.status =
      some (if reply.code = 0 then 200 else reply.code) := by
  refine ⟨?_, ?_, ?_⟩ <;> simp [translateReply, hd, hSet, mGet_mSet]

theorem string_reply_sniff_verbatim_inst :
    (translateReply replyJsonStr [] {}).2.body = ({} : Response).body ++ "\x7b\"a\":1\x7d" ∧
    mGet (translateReply replyJsonStr [] {}).2.headers "Content-Type" =
      some [if jsonValid "\x7b\"a\":1\x7d" then "application/json; charset=UTF-8"
            else "text/plain; charset=UTF-8"] ∧
    (translateReply replyJsonStr [] {}).2.status =
      some (if replyJsonStr.code = 0 then 200 else replyJsonStr.code) :=
  string_reply_sniff_verbatim replyJsonStr [] {} "\x7b\"a\":1\x7d" rfl

/-- Claim C6, counterexample: a whitespace-only body is non-empty and
is not a JSON value (`json.Unmarshal` would reject it), yet
`json.Decoder.Decode` reports `io.EOF` on it, which the handler treats
as success: no 400 is produced (the handler runs and replies 200). -/
theorem json_ws_body_not_400 :
    (" " : String) ≠ "" ∧
    jsonValid " " = false ∧
    (newGinHandler "POST" replyOkHandler reqJsonWs).invoked = true ∧
    (newGinHandler "POST" replyOkHandler reqJsonWs).resp.status = some 200 :=
  ⟨by decide, rfl, rfl, rfl⟩

/-- Claim C6, amended: for a JSON-declared request whose body makes the
decoder fail (any decode error other than the `io.EOF` produced by an
empty or whitespace-only stream), the client gets a 400 carrying the
parse-error text and the external handler is never invoked. -/
theorem json_decode_error_400 (method : String) (handler : Output → Except String Reply)
    (req : Request) (e : String)
    (hct : hGet req.headers "Content-Type" = "application/json")
    (hdec : decodeGo req.body = DecodeResult.fail e) :
    (newGinHandler method handler req).invoked = false ∧
    (newGinHandler method handler req).resp.status = some 400 ∧
    (newGinHandler method handler req).resp.body = e ++ "\n" := by
  refine ⟨?_, ?_, ?_⟩ <;>
    simp [newGinHandler, hct, hdec, errResult, httpError]

theorem json_decode_error_400_inst :
    (newGinHandler "POST" replyOkHandler reqJsonBad).invoked = false ∧
    (newGinHandler "POST" replyOkHandler reqJsonBad).resp.status = some 400 ∧
    (newGinHandler "POST" replyOkHandler reqJsonBad).resp.body =
      "invalid character looking for beginning of value" ++ "\n" :=
  json_decode_error_400 "POST" replyOkHandler reqJsonBad
    "invalid character looking for beginning of value" rfl rfl

/-- Claim C7: a JSON-declared request with a zero-byte body decodes to
`io.EOF`, which is treated as success: the content stays absent and the
external handler is still invoked. -/
theorem json_empty_body_absent (method : String) (handler : Output → Except String Reply)
    (req : Request)
    (hct : hGet req.headers "Content-Type" = "application/json")
    (hbody : req.body = "") :
    (newGinHandler method handler req).invoked = true ∧
    (newGinHandler method handler req).output = some (buildOutput method req) ∧
    (buildOutput method req).content = none := by
  have hdec : decodeGo req.body = DecodeResult.eof := by rw [hbody]; rfl
  have h := afterDecode_invoked handler req (buildOutput method req)
  refine ⟨?_, ?_, rfl⟩
  · simp [newGinHandler, hct, hdec, h.1]
  · simp [newGinHandler, hct, hdec, h.2]

theorem json_empty_body_absent_inst :
    (newGinHandler "POST" replyOkHandler reqJsonEmpty).invoked = true ∧
    (newGinHandler "POST" replyOkHandler reqJsonEmpty).output =
      some (buildOutput "POST" reqJsonEmpty) ∧
    (buildOutput "POST" reqJsonEmpty).content = none :=
  json_empty_body_absent "POST" replyOkHandler reqJsonEmpty rfl rfl

/-- Claim C8: `Start` on an already-running handle and `Stop` on a
not-running handle are no-ops returning nil, leaving the handle
unchanged (and `Start` does not even probe the port). -/
theorem start_stop_idempotent (s : Server) (probeErr : Option GoErr) (inflight : Nat)
    (closeErr : Option GoErr) :
    (s.running = true →
      Server.Start s probeErr = { server := s, result := none, probed := false }) ∧
    (s.running = false → Server.Stop s inflight closeErr = (s, none)) := by
  constructor
  · intro h; simp [Server.Start, h]
  · intro h; simp [Server.Stop, h]

theorem start_stop_idempotent_inst :
    Server.Start srvRunning none =
      { server := srvRunning, result := none, probed := false } ∧
    Server.Stop srvStopped 0 none = (srvStopped, none) :=
  ⟨(start_stop_idempotent srvRunning none 0 none).1 rfl,
   (start_stop_idempotent srvStopped none 0 none).2 rfl⟩

/-- Claim C9: a JSON-declared body that decodes to a first value with
unread bytes left over is accepted: the handler is invoked with that
first value as the content (a decoded `null` being the absent `nil`),
and the trailing bytes cause no `BadRequest`. -/
theorem json_trailing_ignored (method : String) (handler : Output → Except String Reply)
    (req : Request) (v : Jval) (rest : List Char)
    (hct : hGet req.headers "Content-Type" = "application/json")
    (hdec : decodeGo req.body = DecodeResult.ok v rest)
    (_hne : rest ≠ []) :
    (newGinHandler method handler req).invoked = true ∧
    (newGinHandler method handler req).output =
      some { buildOutput method req with content := contentOfJval v } := by
  have h := afterDecode_invoked handler req
    { buildOutput method req with content := contentOfJval v }
  constructor <;> simp [newGinHandler, hct, hdec, h.1, h.2]

theorem json_trailing_ignored_inst :
    (newGinHandler "PUT" replyOkHandler reqTrailing).invoked = true ∧
    (newGinHandler "PUT" replyOkHandler reqTrailing).output =
      some { buildOutput "PUT" reqTrailing with content := contentOfJval (Jval.num "1") } :=
  json_trailing_ignored "PUT" replyOkHandler reqTrailing (Jval.num "1") [' ', 'x']
    rfl rfl (by decide)

/-- Claim C10: `Stop` writes no field of the server, so after a `Stop`
the running flag still reads true; a `Start` issued then returns nil
without probing the port and without changing the server; only the
detached serve goroutine clears the flag, when its listen call returns
an error. -/
theorem stop_preserves_running_flag (s : Server) (inflight : Nat)
    (closeErr probeErr : Option GoErr) (e : GoErr) (h : s.running = true) :
    (Server.Stop s inflight closeErr).1 = s ∧
    (Server.Stop s inflight closeErr).1.running = true ∧
    Server.Start (Server.Stop s inflight closeErr).1 probeErr =
      { server := s, result := none, probed := false } ∧
    (serveExit s (some e)).running = false ∧
    serveExit s none = s := by
  have h1 : (Server.Stop s inflight closeErr).1 = s := by
    unfold Server.Stop
    by_cases hr : s.running <;> simp [hr]
  refine ⟨h1, by rw [h1, h], ?_, rfl, rfl⟩
  rw [h1]
  simp [Server.Start, h]

theorem stop_preserves_running_flag_inst :
    (Server.Stop srvRunning 0 none).1 = srvRunning ∧
    (Server.Stop srvRunning 0 none).1.running = true ∧
    Server.Start (Server.Stop srvRunning 0 none).1 none =
      { server := srvRunning, result := none, probed := false } ∧
    (serveExit srvRunning (some GoErr.deadlineExceeded)).running = false ∧
    serveExit srvRunning none = srvRunning :=
  stop_preserves_running_flag srvRunning 0 none none GoErr.deadlineExceeded rfl

end ContribGin
